import Mathlib

/-!
# Verification of the R Markdown render-job supervisor and output server

Shallow embedding of `SessionRMarkdown.cpp` (the render-job supervisor,
completion detector, MathJax content filter, and output-resource HTTP
handler) together with theorems checking the module's specification.

External collaborators (the filesystem, path aliasing, the R interpreter,
the process supervisor) are passed in as explicit function parameters; the
control flow and string manipulation of the module itself is translated
directly from the source.
-/

/-! ## String utilities

The C++ code manipulates `std::string` byte strings.  We model strings as
Lean `String` and work on the underlying character list, mirroring the
byte-level operations (`substr`, `find`, `starts_with`, `trim`) used by
the source.
-/

/-- `std::string::substr(0, n)` — the first `n` characters. -/
def strTake (s : String) (n : Nat) : String :=
  String.mk (s.data.take n)

/-- `std::string::substr(n)` — everything from index `n` on. -/
def strDrop (s : String) (n : Nat) : String :=
  String.mk (s.data.drop n)

/-- Length in characters (bytes regarded one-to-one for the ASCII data
involved here). -/
def strLen (s : String) : Nat :=
  s.data.length

/-- `boost::algorithm::starts_with(s, p)`. -/
def strStartsWith (s p : String) : Bool :=
  p.data.isPrefixOf s.data

/-- First index `≥ start` of character `c` in a character list. -/
def findIdxFrom (c : Char) : List Char → Option Nat
  | [] => none
  | x :: xs => if x = c then some 0 else (findIdxFrom c xs).map (· + 1)

/-- `std::string::find(c, start)` — the least index `≥ start` holding `c`,
or `none` (npos). -/
def strFindFrom (s : String) (c : Char) (start : Nat) : Option Nat :=
  (findIdxFrom c (s.data.drop start)).map (start + ·)

/-- `boost::algorithm::trim` — removes leading AND trailing whitespace. -/
def strTrim (s : String) : String :=
  String.mk (((s.data.dropWhile Char.isWhitespace).reverse.dropWhile
      Char.isWhitespace).reverse)

/-- Trailing-whitespace-only trim: this is what the specification's words
("trim trailing whitespace") describe; compare with `strTrim`, which is
what `boost::algorithm::trim` actually does. -/
def strTrimRight (s : String) : String :=
  String.mk ((s.data.reverse.dropWhile Char.isWhitespace).reverse)

/-- Split a character list at newline characters; the `'\n'` delimiters are
consumed.  An empty input yields one empty line (matching `std::getline`,
which on input `""` fails immediately — the empty-input case is handled in
`getLines`). -/
def splitLines : List Char → List (List Char)
  | [] => [[]]
  | c :: rest =>
    if c = '\n' then [] :: splitLines rest
    else
      match splitLines rest with
      | [] => [[c]]
      | l :: ls => (c :: l) :: ls

/-- The sequence of lines produced by the source's `std::getline` loop over
a `std::stringstream`: lines are separated by `'\n'` (a `'\r'` before it is
kept in the line), a trailing newline does not produce a final empty line,
and an empty stream produces no lines. -/
def getLines (s : String) : List String :=
  if s.data = [] then []
  else
    let ls := (splitLines s.data).map String.mk
    if s.data.getLast? = some '\n' then ls.dropLast else ls

/-! ## URL encoding and decoding

Models of `http::util::urlEncode(s, false)` and `http::util::urlDecode`
(external collaborators from the http utility library): standard
percent-encoding with the unreserved set `[A-Za-z0-9-_.~]`, uppercase hex,
no `'+'`-for-space handling (the query-string flag is passed `false`). -/

/-- Hex digit characters, uppercase. -/
def hexDigit (n : Nat) : Char :=
  if n < 10 then Char.ofNat (48 + n) else Char.ofNat (55 + n)

/-- Value of a hex digit character, if it is one. -/
def hexVal (c : Char) : Option Nat :=
  if '0' ≤ c ∧ c ≤ '9' then some (c.toNat - 48)
  else if 'A' ≤ c ∧ c ≤ 'F' then some (c.toNat - 55)
  else if 'a' ≤ c ∧ c ≤ 'f' then some (c.toNat - 87)
  else none

/-- Is `c` in the unreserved set left untouched by `urlEncode`? -/
def isUrlUnreserved (c : Char) : Bool :=
  c.isAlphanum || c = '-' || c = '_' || c = '.' || c = '~'

/-- Percent-encode one character. -/
def urlEncodeChar (c : Char) : List Char :=
  if isUrlUnreserved c then [c]
  else ['%', hexDigit (c.toNat % 256 / 16), hexDigit (c.toNat % 256 % 16)]

/-- `http::util::urlEncode(s, false)`. -/
def urlEncode (s : String) : String :=
  String.mk (s.data.flatMap urlEncodeChar)

/-- Percent-decode a character list: `%XX` becomes the character with hex
code `XX`; everything else passes through. -/
def urlDecodeList : List Char → List Char
  | [] => []
  | '%' :: h₁ :: h₂ :: rest =>
    match hexVal h₁, hexVal h₂ with
    | some v₁, some v₂ => Char.ofNat (16 * v₁ + v₂) :: urlDecodeList rest
    | _, _ => '%' :: urlDecodeList (h₁ :: h₂ :: rest)
  | c :: rest => c :: urlDecodeList rest

/-- `http::util::urlDecode`. -/
def urlDecode (s : String) : String :=
  String.mk (urlDecodeList s.data)

/-! ## File paths

Models of the `core::FilePath` operations the module uses (external
collaborators from the core library).  Paths are POSIX-style strings. -/

namespace FilePath

/-- Does the path look absolute? -/
def isAbsolutePath (p : String) : Bool :=
  strStartsWith p "/"

/-- `FilePath::parent` — the containing directory: everything before the
last `'/'` (empty when there is no separator). -/
def parentPath (p : String) : String :=
  match strFindFrom (String.mk p.data.reverse) '/' 0 with
  | none => ""
  | some i => strTake p (p.data.length - i - 1)

/-- `FilePath::complete(child)` — an absolute child is used as-is;
otherwise it is resolved against the base directory. -/
def complete (dir child : String) : String :=
  if isAbsolutePath child then child else dir ++ "/" ++ child

/-- `FilePath::childPath` (2014-era core): resolves a relative path
against the directory, like `complete`. -/
def childPath (dir child : String) : String :=
  complete dir child

/-- `FilePath::exists()` consulted against a filesystem `fs`: an empty
(default-constructed) `FilePath` never exists; otherwise the filesystem
decides. -/
def pexists (fs : String → Bool) (p : String) : Bool :=
  if p = "" then false else fs p

end FilePath

/-! ## Client events and the render job

`RenderRmd` in the source is a stateful object; we pass its field record
explicitly.  Event publication (`enqueClientEvent`) is modelled by
returning the list of published `ClientEvent`s in order.

`module_context::createAliasedPath` (external) is passed in as `aliasFn`;
the filesystem as `fs`; the resolution of the R interpreter binary
(`module_context::rScriptPath`) as an `Except` value.

`getOutputFormat` calls into R (an external collaborator) and only fills
event metadata; it is not modelled, and the format metadata is omitted from
the event records here. `rmarkdown::presentation::ammendResults` only
appends format-specific fields to the completion record and is likewise
omitted. -/

/-- Output-event type tag: `kCompileOutputNormal` / `kCompileOutputError`. -/
inductive OutputType where
  | normal
  | error
deriving DecidableEq, Repr

/-- The fields of the `kRmdRenderCompleted` event relevant here. -/
structure RenderResult where
  succeeded : Bool
  targetFile : String
  outputFile : String
  outputUrl : String
deriving DecidableEq, Repr

/-- Events enqueued by `module_context::enqueClientEvent`. -/
inductive ClientEvent where
  | renderStarted (targetFile : String)
  | renderOutput (t : OutputType) (text : String)
  | renderCompleted (r : RenderResult)
deriving DecidableEq, Repr

/-- The `succeeded` field of a completion event, if the event is one. -/
def ClientEvent.completedSuccess : ClientEvent → Option Bool
  | .renderCompleted r => some r.succeeded
  | _ => none

/-- The `output_url` field of a completion event, if the event is one. -/
def ClientEvent.completedUrl : ClientEvent → Option String
  | .renderCompleted r => some r.outputUrl
  | _ => none

/-- The state fields of a `RenderRmd` object. -/
structure RenderRmd where
  isRunning : Bool
  terminationRequested : Bool
  targetFile : String
  sourceLine : Int
  outputFile : String
  encoding : String
deriving DecidableEq, Repr

/-- The constructor `RenderRmd(targetFile, sourceLine)`: not yet running,
no termination requested, no output file. -/
def RenderRmd.init (targetFile : String) (sourceLine : Int) : RenderRmd :=
  { isRunning := false
    terminationRequested := false
    targetFile := targetFile
    sourceLine := sourceLine
    outputFile := ""
    encoding := "" }

/-- `RenderRmd::terminate()` (the public overload): request cooperative
termination. -/
def RenderRmd.terminate (job : RenderRmd) : RenderRmd :=
  { job with terminationRequested := true }

/-- `RenderRmd::onRenderContinue` — the continuation predicate polled by
the process supervisor. -/
def RenderRmd.onRenderContinue (job : RenderRmd) : Bool :=
  !job.terminationRequested

/-- The URL mount segment `kRmdOutput`. -/
def kRmdOutput : String := "rmd_output"

/-- `RenderRmd::terminate(bool succeeded)` (the private overload): clear
`isRunning_`, build the completion record — including the doubly
URL-encoded output URL — and publish the `kRmdRenderCompleted` event.
(The `WIN32`-only third encoding pass is not part of this non-Windows
model; slide and rpubs fields are format metadata, omitted.) -/
def RenderRmd.terminateSucceeded (aliasFn : String → String) (job : RenderRmd)
    (succeeded : Bool) : RenderRmd × ClientEvent :=
  let job' := { job with isRunning := false }
  let outputFile := aliasFn job'.outputFile
  let encodedOutputFile := urlEncode (urlEncode outputFile)
  let outputUrl := kRmdOutput ++ "/" ++ encodedOutputFile ++ "/"
  (job', .renderCompleted
    { succeeded := succeeded
      targetFile := aliasFn job'.targetFile
      outputFile := outputFile
      outputUrl := outputUrl })

/-- `RenderRmd::enqueRenderOutput`. -/
def enqueRenderOutput (t : OutputType) (output : String) : ClientEvent :=
  .renderOutput t output

/-- `RenderRmd::terminateWithError(const std::string&)`: publish one
error-type output event, then a failed completion. -/
def RenderRmd.terminateWithErrorMsg (aliasFn : String → String)
    (job : RenderRmd) (message : String) : RenderRmd × List ClientEvent :=
  let ev₁ := enqueRenderOutput .error message
  let (job', ev₂) := job.terminateSucceeded aliasFn false
  (job', [ev₁, ev₂])

/-- `RenderRmd::terminateWithError(const Error&)`: format the message from
the aliased target path and the error summary. -/
def RenderRmd.terminateWithError (aliasFn : String → String) (job : RenderRmd)
    (summary : String) : RenderRmd × List ClientEvent :=
  job.terminateWithErrorMsg aliasFn
    ("Error rendering R Markdown for " ++ aliasFn job.targetFile ++ " " ++ summary)

/-- `RenderRmd::performRender`: store the encoding; if resolving the R
interpreter binary fails, terminate with that error; otherwise the
external process is launched (its callbacks fire later) and no event is
published now. -/
def RenderRmd.performRender (aliasFn : String → String) (job : RenderRmd)
    (rScriptPath : Except String String) (encoding : String) :
    RenderRmd × List ClientEvent :=
  let job' := { job with encoding := encoding }
  match rScriptPath with
  | .error e => job'.terminateWithError aliasFn e
  | .ok _ => (job', [])

/-- `RenderRmd::start`: publish the `kRmdRenderStarted` event, mark the job
running, then perform the render. -/
def RenderRmd.start (aliasFn : String → String) (job : RenderRmd)
    (rScriptPath : Except String String) (encoding : String) :
    RenderRmd × List ClientEvent :=
  let ev := ClientEvent.renderStarted (aliasFn job.targetFile)
  let job' := { job with isRunning := true }
  let (job'', evs) := job'.performRender aliasFn rScriptPath encoding
  (job'', ev :: evs)

/-- `RenderRmd::create`: construct and start a job. -/
def RenderRmd.create (aliasFn : String → String) (targetFile : String)
    (sourceLine : Int) (rScriptPath : Except String String)
    (encoding : String) : RenderRmd × List ClientEvent :=
  (RenderRmd.init targetFile sourceLine).start aliasFn rScriptPath encoding

/-- `RenderRmd::onRenderOutput`: append the chunk to the accumulated
buffer and republish it as an incremental output event. -/
def RenderRmd.onRenderOutput (t : OutputType) (output : String)
    (pAllOutput : String) : String × ClientEvent :=
  (pAllOutput ++ output, enqueRenderOutput t output)

/-! ## Completion detection -/

/-- The completion-marker prefix scanned for in the process output. -/
def completeMarker : String := "Output created: "

/-- The scan loop of `RenderRmd::onRenderCompleted`: take the first line
starting with the marker, drop the marker, and `boost::algorithm::trim`
the remainder (both ends). -/
def scanOutput : List String → Option String
  | [] => none
  | l :: ls =>
    if strStartsWith l completeMarker then
      some (strTrim (strDrop l (strLen completeMarker)))
    else scanOutput ls

/-- The same scan as the specification's words describe it: trimming
trailing whitespace only.  Used to compare the spec against `scanOutput`,
which models the source. -/
def scanOutputSpecTrail : List String → Option String
  | [] => none
  | l :: ls =>
    if strStartsWith l completeMarker then
      some (strTrimRight (strDrop l (strLen completeMarker)))
    else scanOutputSpecTrail ls

/-- `RenderRmd::onRenderCompleted`: scan the accumulated output for the
completion marker, resolve the named file against the target's directory,
and terminate with success iff the exit status is zero and the resolved
output file exists. -/
def RenderRmd.onRenderCompleted (aliasFn : String → String)
    (fs : String → Bool) (job : RenderRmd) (exitStatus : Int)
    (pAllOutput : String) : RenderRmd × ClientEvent :=
  let job' :=
    match scanOutput (getLines pAllOutput) with
    | some fileName =>
      { job with outputFile :=
          FilePath.complete (FilePath.parentPath job.targetFile) fileName }
    | none => job
  job'.terminateSucceeded aliasFn
    (decide (exitStatus = 0) && FilePath.pexists fs job'.outputFile)

/-! ## The render supervisor -/

/-- `isRenderRunning`: the current-job slot holds a running job. -/
def isRenderRunning (cur : Option RenderRmd) : Bool :=
  match cur with
  | some job => job.isRunning
  | none => false

/-- The RPC handler `renderRmd` acting on the current-job slot
`s_pCurrentRender_`: returns the boolean RPC result, the new slot, and the
events published.  `resolveAlias` models
`module_context::resolveAliasedPath`. -/
def renderRmd (aliasFn resolveAlias : String → String)
    (rScriptPath : Except String String) (cur : Option RenderRmd)
    (file : String) (line : Int) (encoding : String) :
    Bool × Option RenderRmd × List ClientEvent :=
  if isRenderRunning cur then
    (false, cur, [])
  else
    let (job, evs) :=
      RenderRmd.create aliasFn (resolveAlias file) line rScriptPath encoding
    (true, some job, evs)

/-- The RPC handler `terminateRenderRmd`: always returns `Success()`; when
a job is running, requests its cooperative termination. -/
def terminateRenderRmd (cur : Option RenderRmd) :
    Except String Unit × Option RenderRmd :=
  let cur' :=
    if isRenderRunning cur then
      match cur with
      | some job => some job.terminate
      | none => none
    else cur
  (Except.ok (), cur')

/-! ## The output-resource HTTP handler -/

/-- The responses `handleRmdOutputRequest` can produce:
a 404 with a message body (`setError(NotFound, msg)`), the main artifact
served with no-cache headers through the MathJax content filter
(`setNoCacheHeaders` + `setFile` with `mathjaxFilter`), or a file served
cacheable and unfiltered (`setCacheableFile`). -/
inductive HttpResponse where
  | notFound (msg : String)
  | serveNoCacheFiltered (path : String)
  | serveCacheable (path : String)
deriving DecidableEq, Repr

/-- The reserved math-resource URL segment `kMathjaxSegment`. -/
def kMathjaxSegment : String := "mathjax"

/-- `handleRmdOutputRequest`, on the request path after the mount location
prefix has been stripped (`http::util::pathAfterPrefix`).  The filesystem
is `fs`, `resolveAlias` models `module_context::resolveAliasedPath`, and
`mathjaxDir` is the directory `mathJaxDirectory()` returned by R.
`path.substr(sizeof(kMathjaxSegment))` drops 8 characters — `sizeof`
counts the terminating NUL, so the separating `'/'` is dropped too. -/
def handleRmdOutputRequest (fs : String → Bool)
    (resolveAlias : String → String) (mathjaxDir : String)
    (path : String) : HttpResponse :=
  match strFindFrom path '/' 1 with
  | none => .notFound "No output file found"
  | some pos =>
    let outputFile := urlDecode (strTake path pos)
    let outputFilePath := resolveAlias outputFile
    if FilePath.pexists fs outputFilePath = false then
      .notFound (outputFile ++ " not found")
    else
      let rest := strDrop path (pos + 1)
      if rest = "" then
        .serveNoCacheFiltered outputFilePath
      else if strStartsWith rest kMathjaxSegment then
        .serveCacheable (FilePath.complete mathjaxDir (strDrop rest 8))
      else
        .serveCacheable
          (FilePath.childPath (FilePath.parentPath outputFilePath) rest)

/-! ## The MathJax content filter

`MathjaxFilter` is a `boost::iostreams::regex_filter`: the regex machinery
(external) tokenizes the stream into regex matches and the unmatched text
between them, and `MathjaxFilter::substitute` maps each match to its
replacement.  We embed the stream as the resulting token list:
math-markup start tokens (`\[`, `\(`, `<math`), the fixed
`kMathjaxBeginComment` comment, the `script.src = "http...MathJax.js..."`
loader line (with its two capture groups), and plain unmatched text. -/

/-- The fixed comment marking where the MathJax config may be injected. -/
def kMathjaxBeginComment : String := "<!-- dynamically load mathjax"

/-- One token of the filtered stream. -/
inductive HtmlTok where
  /-- A math-markup start token: `\[`, `\(` or `<math` (match group 0). -/
  | math (s : String)
  /-- The `kMathjaxBeginComment` comment. -/
  | beginComment
  /-- The loader script line; `pre` is capture group 1
  (`script src = `), `frag` capture group 2 (`MathJax.js...`). -/
  | scriptLine (pre frag : String)
  /-- Unmatched text, passed through verbatim by the regex filter. -/
  | text (s : String)
deriving DecidableEq, Repr

/-- `MathjaxFilter::substitute` plus the regex filter's pass-through of
unmatched text: maps one token and the current `hasMathjax_` flag to the
emitted string and the updated flag.  `injectConfig` abstracts the
platform/mode conditional (`!__APPLE__ && desktop`) under which the Qt
MathJax config block `configScript` is emitted before the begin-comment. -/
def MathjaxFilter.substitute (injectConfig : Bool) (configScript : String)
    (hasMathjax : Bool) : HtmlTok → String × Bool
  | .math s => (s, true)
  | .beginComment =>
    (if injectConfig then configScript ++ "\n" ++ kMathjaxBeginComment
     else kMathjaxBeginComment, hasMathjax)
  | .scriptLine pre frag =>
    (if hasMathjax then pre ++ "\"" ++ kMathjaxSegment ++ "/" ++ frag ++ "\""
     else "", hasMathjax)
  | .text s => (s, hasMathjax)

/-- Run the filter over a token stream from a given `hasMathjax_` flag,
concatenating the emitted strings. -/
def MathjaxFilter.run (injectConfig : Bool) (configScript : String) :
    Bool → List HtmlTok → String
  | _, [] => ""
  | flag, t :: ts =>
    (MathjaxFilter.substitute injectConfig configScript flag t).1
      ++ MathjaxFilter.run injectConfig configScript
          (MathjaxFilter.substitute injectConfig configScript flag t).2 ts

/-- The `hasMathjax_` flag after a stream: it is set exactly when a
math-markup start token occurred. -/
def hasMathTok (ts : List HtmlTok) : Bool :=
  ts.any fun t =>
    match t with
    | .math _ => true
    | _ => false

/-! ## Helper lemmas -/

/-- Rebuilding a string from its character data is the identity. -/
theorem strMk_data (s : String) : String.mk s.data = s := by
  cases s
  rfl

/-- `scanOutput` yields `none` exactly when no line carries the marker. -/
theorem scanOutput_eq_none_iff (ls : List String) :
    scanOutput ls = none ↔ ∀ l ∈ ls, strStartsWith l completeMarker = false := by
  induction ls with
  | nil => simp [scanOutput]
  | cons l ls ih =>
    by_cases h : strStartsWith l completeMarker = true
    · simp [scanOutput, h]
    · simp only [Bool.not_eq_true] at h
      simp [scanOutput, h, ih]

/-- `scanOutput` returns the first marker line's trimmed remainder. -/
theorem scanOutput_first (pre : List String) (l : String) (post : List String)
    (hpre : ∀ l' ∈ pre, strStartsWith l' completeMarker = false)
    (hl : strStartsWith l completeMarker = true) :
    scanOutput (pre ++ l :: post)
      = some (strTrim (strDrop l (strLen completeMarker))) := by
  induction pre with
  | nil => simp [scanOutput, hl]
  | cons p ps ih =>
    have hp : strStartsWith p completeMarker = false := hpre p (by simp)
    simp only [List.cons_append, scanOutput, hp, Bool.false_eq_true, if_false]
    exact ih fun l' hl' => hpre l' (by simp [hl'])

/-- A completed path is never the empty string. -/
theorem complete_ne_empty (dir child : String) :
    FilePath.complete dir child ≠ "" := by
  unfold FilePath.complete
  by_cases h : FilePath.isAbsolutePath child = true
  · simp only [h, if_true]
    intro hc
    unfold FilePath.isAbsolutePath strStartsWith at h
    subst hc
    simp [List.isPrefixOf] at h
  · simp only [h, if_false]
    intro hc
    have := congrArg String.data hc
    simp [String.data_append] at this

/-! ## C1 — startRender accepts or rejects on the running state -/

/-- C1: if the current job is running, `renderRmd` returns `false`
leaving the job slot (and hence the running job's state) untouched and
publishing nothing; otherwise it constructs and starts a fresh job,
installs it in the slot, and returns `true`. -/
theorem renderRmd_startRender (aliasFn resolveAlias : String → String)
    (rScriptPath : Except String String) (cur : Option RenderRmd)
    (file : String) (line : Int) (encoding : String) :
    (isRenderRunning cur = true →
      renderRmd aliasFn resolveAlias rScriptPath cur file line encoding
        = (false, cur, []))
    ∧ (isRenderRunning cur = false →
      renderRmd aliasFn resolveAlias rScriptPath cur file line encoding
        = (true,
           some (RenderRmd.create aliasFn (resolveAlias file) line
                   rScriptPath encoding).1,
           (RenderRmd.create aliasFn (resolveAlias file) line
                   rScriptPath encoding).2)) := by
  constructor
  · intro h
    simp [renderRmd, h]
  · intro h
    simp [renderRmd, h]

/-- C1 witness: a second start request against a running job is refused
and changes nothing; starting with an idle slot succeeds. -/
theorem renderRmd_startRender_witness :
    renderRmd id id (Except.ok "/usr/lib/R/bin/R")
        (some ⟨true, false, "/home/u/doc.Rmd", 4, "", "UTF-8"⟩)
        "/home/u/other.Rmd" 1 "UTF-8"
      = (false, some ⟨true, false, "/home/u/doc.Rmd", 4, "", "UTF-8"⟩, []) :=
  (renderRmd_startRender id id (Except.ok "/usr/lib/R/bin/R")
    (some ⟨true, false, "/home/u/doc.Rmd", 4, "", "UTF-8"⟩)
    "/home/u/other.Rmd" 1 "UTF-8").1 rfl

/-! ## C2 — completion success is exit-code-zero AND output-file-exists -/

/-- C2: the completion event published by `onRenderCompleted` reports
success exactly when the process exit status is zero and the resolved
output file exists; in particular a nonzero exit status is never reported
as success, marker or not. -/
theorem onRenderCompleted_success (aliasFn : String → String)
    (fs : String → Bool) (job : RenderRmd) (exitStatus : Int)
    (pAllOutput : String) :
    ClientEvent.completedSuccess
        ((RenderRmd.onRenderCompleted aliasFn fs job exitStatus pAllOutput).2)
      = some (decide (exitStatus = 0) && FilePath.pexists fs
          ((RenderRmd.onRenderCompleted aliasFn fs job exitStatus
              pAllOutput).1).outputFile) := by
  unfold RenderRmd.onRenderCompleted
  cases scanOutput (getLines pAllOutput) <;>
    simp [RenderRmd.terminateSucceeded, ClientEvent.completedSuccess]

/-! ## C7 — the output URL is the mount plus the doubly-encoded path -/

/-- C7: the completion event's output URL is the mount segment, a slash,
the aliased output file path URL-encoded exactly twice, and a trailing
slash (non-Windows build; Windows adds one further pass). -/
theorem terminateSucceeded_outputUrl (aliasFn : String → String)
    (job : RenderRmd) (succeeded : Bool) :
    ClientEvent.completedUrl ((job.terminateSucceeded aliasFn succeeded).2)
      = some (kRmdOutput ++ "/"
          ++ urlEncode (urlEncode (aliasFn job.outputFile)) ++ "/") := by
  simp [RenderRmd.terminateSucceeded, ClientEvent.completedUrl]

/-! ## C9 — terminateRender always succeeds and is advisory -/

/-- C9: `terminateRenderRmd` always returns `Success()`; when the current
job is running it sets that job's cooperative termination flag, after
which the continuation predicate polled by the process adapter returns
`false`; when no job is running it leaves the slot untouched. -/
theorem terminateRenderRmd_spec (cur : Option RenderRmd) :
    (terminateRenderRmd cur).1 = Except.ok ()
    ∧ (∀ job, cur = some job → job.isRunning = true →
        (terminateRenderRmd cur).2 = some job.terminate
        ∧ job.terminate.terminationRequested = true
        ∧ RenderRmd.onRenderContinue job.terminate = false)
    ∧ (isRenderRunning cur = false → (terminateRenderRmd cur).2 = cur) := by
  refine ⟨rfl, ?_, ?_⟩
  · rintro job rfl hrun
    simp [terminateRenderRmd, isRenderRunning, hrun, RenderRmd.terminate,
      RenderRmd.onRenderContinue]
  · intro h
    simp [terminateRenderRmd, h]

/-- C9 witness: terminating a concrete running job flips its flag and
stops the continuation predicate; the call reports success. -/
theorem terminateRenderRmd_witness :
    (terminateRenderRmd (some ⟨true, false, "/home/u/doc.Rmd", 1, "", ""⟩)).1
        = Except.ok ()
    ∧ (terminateRenderRmd
        (some ⟨true, false, "/home/u/doc.Rmd", 1, "", ""⟩)).2
        = some (RenderRmd.terminate ⟨true, false, "/home/u/doc.Rmd", 1, "", ""⟩)
    ∧ RenderRmd.onRenderContinue
        (RenderRmd.terminate ⟨true, false, "/home/u/doc.Rmd", 1, "", ""⟩)
        = false := by
  obtain ⟨h₁, h₂, -⟩ :=
    terminateRenderRmd_spec (some ⟨true, false, "/home/u/doc.Rmd", 1, "", ""⟩)
  obtain ⟨h₃, -, h₄⟩ := h₂ ⟨true, false, "/home/u/doc.Rmd", 1, "", ""⟩ rfl rfl
  exact ⟨h₁, h₃, h₄⟩

/-! ## C10 — a path with no separator is refused before any lookup -/

/-- C10: when the path after the mount prefix has no `'/'` at or after
offset 1, the handler answers 404 "No output file found" — for every
filesystem and alias resolver, so no decoding or filesystem access can
influence the response. -/
theorem handleRmdOutputRequest_noSep (fs : String → Bool)
    (resolveAlias : String → String) (mathjaxDir : String) (path : String)
    (h : strFindFrom path '/' 1 = none) :
    handleRmdOutputRequest fs resolveAlias mathjaxDir path
      = .notFound "No output file found" := by
  unfold handleRmdOutputRequest
  rw [h]

/-- C10 witness: a concrete separator-less request path is refused with
the fixed message under an all-seeing filesystem. -/
theorem handleRmdOutputRequest_noSep_witness :
    handleRmdOutputRequest (fun _ => true) id "/mathjax" "abc.html"
      = .notFound "No output file found" :=
  handleRmdOutputRequest_noSep (fun _ => true) id "/mathjax" "abc.html"
    (by decide)

/-! ## C8 — launch failure publishes one error event then a failed completion -/

/-- C8: when resolving the R interpreter binary fails, a start request
still returns `true` and installs the job, and the job publishes the
start event, exactly one error-type output event — whose message is the
aliased target path with the error summary — and immediately after it a
completion event with `succeeded = false` and no output file (the job's
`outputFile` stays unset and the job is left not running, so the
supervisor is free to accept the next request). -/
theorem renderRmd_launchFailure (aliasFn resolveAlias : String → String)
    (e file : String) (line : Int) (encoding : String) :
    renderRmd aliasFn resolveAlias (Except.error e) none file line encoding
      = (true,
         some { isRunning := false, terminationRequested := false,
                targetFile := resolveAlias file, sourceLine := line,
                outputFile := "", encoding := encoding },
         [ClientEvent.renderStarted (aliasFn (resolveAlias file)),
          ClientEvent.renderOutput OutputType.error
            ("Error rendering R Markdown for " ++ aliasFn (resolveAlias file)
              ++ " " ++ e),
          ClientEvent.renderCompleted
            { succeeded := false,
              targetFile := aliasFn (resolveAlias file),
              outputFile := aliasFn "",
              outputUrl := kRmdOutput ++ "/"
                ++ urlEncode (urlEncode (aliasFn "")) ++ "/" }]) := by
  rfl

/-! ## C3 — when the job's outputFile field is set -/

/-- C3 counterexample: with exit status 1, a filesystem on which nothing
exists, and an output stream carrying the completion marker, the job's
`outputFile` field is nevertheless set — refuting "set only if the exit
code is zero and the file exists" (the completion is still reported
unsuccessful). -/
theorem onRenderCompleted_outputFile_cex :
    ((RenderRmd.onRenderCompleted id (fun _ => false)
        (RenderRmd.init "/home/u/doc.Rmd" 1) 1
        "Output created: a.html\n").1).outputFile = "/home/u/a.html"
    ∧ FilePath.pexists (fun _ => false)
        ((RenderRmd.onRenderCompleted id (fun _ => false)
          (RenderRmd.init "/home/u/doc.Rmd" 1) 1
          "Output created: a.html\n").1).outputFile = false
    ∧ ((1 : Int) = 0) = False := by
  refine ⟨by decide, by decide, by simp⟩

/-- C3 amended: starting from a job whose `outputFile` is unset, the
field is set by completion exactly when a completion-marker line occurs
in the accumulated output — independent of the exit status and of
whether the named file exists. -/
theorem onRenderCompleted_outputFile_iff (aliasFn : String → String)
    (fs : String → Bool) (job : RenderRmd) (exitStatus : Int)
    (pAllOutput : String) (h : job.outputFile = "") :
    ((RenderRmd.onRenderCompleted aliasFn fs job exitStatus
        pAllOutput).1).outputFile ≠ ""
      ↔ ∃ l ∈ getLines pAllOutput, strStartsWith l completeMarker = true := by
  unfold RenderRmd.onRenderCompleted
  rcases hscan : scanOutput (getLines pAllOutput) with - | fileName
  · rw [scanOutput_eq_none_iff] at hscan
    simp only [RenderRmd.terminateSucceeded, h]
    constructor
    · intro hne
      exact absurd rfl hne
    · rintro ⟨l, hl, hmark⟩
      exact absurd (hscan l hl) (by simp [hmark])
  · simp only [RenderRmd.terminateSucceeded]
    constructor
    · intro _
      by_contra hno
      push_neg at hno
      have : scanOutput (getLines pAllOutput) = none := by
        rw [scanOutput_eq_none_iff]
        intro l hl
        have := hno l hl
        simpa using this
      rw [this] at hscan
      exact Option.noConfusion hscan
    · intro _
      exact complete_ne_empty _ _

/-- C3 witness: with exit status 0, an existing file, and the marker
line present, the completed job's `outputFile` is indeed set. -/
theorem onRenderCompleted_outputFile_iff_witness :
    ((RenderRmd.onRenderCompleted id (fun _ => true)
        (RenderRmd.init "/home/u/doc.Rmd" 1) 0
        "Output created: a.html\n").1).outputFile ≠ "" :=
  (onRenderCompleted_outputFile_iff id (fun _ => true)
      (RenderRmd.init "/home/u/doc.Rmd" 1) 0
      "Output created: a.html\n" rfl).mpr
    ⟨"Output created: a.html", by decide, by decide⟩

/-! ## C4 — completion-marker scanning -/

/-- C4 counterexample: on a marker line whose remainder carries leading
whitespace, the code (`boost::algorithm::trim`, both ends) and the
claim's trailing-only trim disagree about the recovered file name. -/
theorem scanOutput_trim_cex :
    scanOutput (getLines "Output created:  a.html") = some "a.html"
    ∧ scanOutputSpecTrail (getLines "Output created:  a.html")
        = some " a.html"
    ∧ (" a.html" : String) ≠ "a.html" := by
  refine ⟨by decide, by decide, by decide⟩

/-- C4 amended: scanning takes the first line starting with
`"Output created: "`, takes the remainder of that line, trims leading and
trailing whitespace, and resolves the result against the target's
containing directory when relative (an absolute name is used as-is);
lines after the first match are ignored. -/
theorem onRenderCompleted_scan (aliasFn : String → String)
    (fs : String → Bool) (job : RenderRmd) (exitStatus : Int)
    (pAllOutput l : String) (pre post : List String)
    (h : getLines pAllOutput = pre ++ l :: post)
    (hl : strStartsWith l completeMarker = true)
    (hpre : ∀ l' ∈ pre, strStartsWith l' completeMarker = false) :
    ((RenderRmd.onRenderCompleted aliasFn fs job exitStatus
        pAllOutput).1).outputFile
      = FilePath.complete (FilePath.parentPath job.targetFile)
          (strTrim (strDrop l (strLen completeMarker)))
    ∧ (FilePath.isAbsolutePath
          (strTrim (strDrop l (strLen completeMarker))) = true →
        FilePath.complete (FilePath.parentPath job.targetFile)
            (strTrim (strDrop l (strLen completeMarker)))
          = strTrim (strDrop l (strLen completeMarker)))
    ∧ (FilePath.isAbsolutePath
          (strTrim (strDrop l (strLen completeMarker))) = false →
        FilePath.complete (FilePath.parentPath job.targetFile)
            (strTrim (strDrop l (strLen completeMarker)))
          = FilePath.parentPath job.targetFile ++ "/"
            ++ strTrim (strDrop l (strLen completeMarker))) := by
  have hscan := scanOutput_first pre l post hpre hl
  refine ⟨?_, ?_, ?_⟩
  · unfold RenderRmd.onRenderCompleted
    rw [h, hscan]
    simp [RenderRmd.terminateSucceeded]
  · intro habs
    simp [FilePath.complete, habs]
  · intro habs
    simp [FilePath.complete, habs]

/-- C4 witness: on a stream with a junk line, a marker line with a
trailing blank, and a second marker line, the first marker wins and the
relative name resolves into the target's directory. -/
theorem onRenderCompleted_scan_witness :
    ((RenderRmd.onRenderCompleted id (fun _ => true)
        (RenderRmd.init "/home/u/doc.Rmd" 1) 0
        "junk\nOutput created: a.html \nOutput created: b.html").1).outputFile
      = "/home/u/a.html" := by
  have h := (onRenderCompleted_scan id (fun _ => true)
      (RenderRmd.init "/home/u/doc.Rmd" 1) 0
      "junk\nOutput created: a.html \nOutput created: b.html"
      "Output created: a.html " ["junk"] ["Output created: b.html"]
      (by decide) (by decide) (by decide)).1
  rw [h]
  decide

/-! ## C5 — output-resource request routing -/

/-- `findIdxFrom` locates the first occurrence of `c` placed after a
`c`-free block. -/
theorem findIdxFrom_append (c : Char) (l₁ l₂ : List Char) (h : c ∉ l₁) :
    findIdxFrom c (l₁ ++ c :: l₂) = some l₁.length := by
  induction l₁ with
  | nil => simp [findIdxFrom]
  | cons x xs ih =>
    have hx : ¬x = c := fun hh => h (by simp [hh])
    have hxs : c ∉ xs := fun hm => h (List.mem_cons_of_mem _ hm)
    simp [findIdxFrom, hx, ih hxs]

/-- The character data of `enc ++ "/" ++ rest`. -/
theorem data_slash_concat (enc rest : String) :
    (enc ++ "/" ++ rest).data = enc.data ++ '/' :: rest.data := by
  simp [String.data_append]

/-- `find('/', 1)` on a path assembled from a nonempty, slash-free (past
its head) first segment lands exactly at the separator. -/
theorem strFindFrom_split (enc rest : String) (hne : enc.data ≠ [])
    (hsl : '/' ∉ enc.data.drop 1) :
    strFindFrom (enc ++ "/" ++ rest) '/' 1 = some (strLen enc) := by
  unfold strFindFrom strLen
  rw [data_slash_concat]
  obtain ⟨x, xs, hx⟩ : ∃ x xs, enc.data = x :: xs := by
    cases hcd : enc.data with
    | nil => exact absurd hcd hne
    | cons a as => exact ⟨a, as, rfl⟩
  rw [hx]
  have hxs : '/' ∉ xs := by
    rw [hx] at hsl
    simpa using hsl
  simp only [List.cons_append, List.drop_succ_cons, List.drop_zero]
  rw [findIdxFrom_append _ _ _ hxs]
  simp [Nat.add_comm]

/-- `substr(0, pos)` recovers the first segment. -/
theorem strTake_concat (enc rest : String) :
    strTake (enc ++ "/" ++ rest) (strLen enc) = enc := by
  unfold strTake strLen
  rw [data_slash_concat, List.take_left, strMk_data]

/-- `substr(pos + 1)` recovers the remaining path. -/
theorem strDrop_concat (enc rest : String) :
    strDrop (enc ++ "/" ++ rest) (strLen enc + 1) = rest := by
  unfold strDrop strLen
  rw [data_slash_concat]
  have : enc.data ++ '/' :: rest.data = (enc.data ++ ['/']) ++ rest.data := by
    simp
  rw [this, List.drop_left' (by simp), strMk_data]

/-- C5: on a request path splitting as an encoded artifact segment, a
separator, and a remaining path, the handler 404s naming the decoded
artifact when it does not exist; serves the artifact itself no-cache
through the MathJax content filter when the remaining path is empty;
serves from the installed MathJax directory, cacheable, when the
remaining path starts with the reserved segment; and otherwise serves
the remaining path resolved against the artifact's directory, cacheable
and unfiltered. -/
theorem handleRmdOutputRequest_cases (fs : String → Bool)
    (resolveAlias : String → String) (mathjaxDir : String)
    (enc rest : String) (hne : enc.data ≠ [])
    (hsl : '/' ∉ enc.data.drop 1) :
    handleRmdOutputRequest fs resolveAlias mathjaxDir (enc ++ "/" ++ rest)
      = (if FilePath.pexists fs (resolveAlias (urlDecode enc)) = false then
           HttpResponse.notFound (urlDecode enc ++ " not found")
         else if rest = "" then
           HttpResponse.serveNoCacheFiltered (resolveAlias (urlDecode enc))
         else if strStartsWith rest kMathjaxSegment then
           HttpResponse.serveCacheable
             (FilePath.complete mathjaxDir (strDrop rest 8))
         else
           HttpResponse.serveCacheable
             (FilePath.childPath
               (FilePath.parentPath (resolveAlias (urlDecode enc)))
               rest)) := by
  unfold handleRmdOutputRequest
  rw [strFindFrom_split enc rest hne hsl]
  simp only [strTake_concat, strDrop_concat]

/-- C5 witness: a concrete request for the doubly-encoded artifact itself
is served no-cache through the content filter. -/
theorem handleRmdOutputRequest_cases_witness :
    handleRmdOutputRequest (fun p => p == "~/a.html") id "/mjdir"
        ("~%2Fa.html" ++ "/" ++ "")
      = HttpResponse.serveNoCacheFiltered "~/a.html" :=
  (handleRmdOutputRequest_cases (fun p => p == "~/a.html") id "/mjdir"
      "~%2Fa.html" "" (by decide) (by decide)).trans (by decide)

/-! ## C6 — the MathJax loader line is suppressed or rewritten -/

/-- Is this token a math-markup start token? -/
def isMathTok : HtmlTok → Bool
  | .math _ => true
  | _ => false

/-- `substitute` raises the `hasMathjax_` flag exactly on math tokens and
never lowers it. -/
theorem substitute_snd (ic : Bool) (cfg : String) (b : Bool) (t : HtmlTok) :
    (MathjaxFilter.substitute ic cfg b t).2 = (b || isMathTok t) := by
  cases t <;> simp [MathjaxFilter.substitute, isMathTok]

/-- `hasMathTok` distributes over cons. -/
theorem hasMathTok_cons (t : HtmlTok) (ts : List HtmlTok) :
    hasMathTok (t :: ts) = (isMathTok t || hasMathTok ts) := by
  cases t <;> simp [hasMathTok, isMathTok]

/-- Running the filter over a concatenation: the flag carried into the
second part is the initial flag joined with whether the first part held a
math token. -/
theorem mathjaxFilter_run_append (ic : Bool) (cfg : String) (b : Bool)
    (ts₁ ts₂ : List HtmlTok) :
    MathjaxFilter.run ic cfg b (ts₁ ++ ts₂)
      = MathjaxFilter.run ic cfg b ts₁
        ++ MathjaxFilter.run ic cfg (b || hasMathTok ts₁) ts₂ := by
  induction ts₁ generalizing b with
  | nil => simp [MathjaxFilter.run, hasMathTok]
  | cons t ts ih =>
    simp only [List.cons_append, MathjaxFilter.run, List.append_eq]
    rw [ih, substitute_snd, hasMathTok_cons, String.append_assoc,
      Bool.or_assoc]

/-- C6: for a stream decomposing around the loader script line, the
filter's output is the filtered preceding part, then — if no math-markup
start token occurred before — nothing at all in place of the script line,
or — if one did — the captured `script src = ` head with its URL
rewritten to the reserved `mathjax/` segment followed by the original
fragment starting at `MathJax.js`, then the filtered rest; math tokens
and plain text pass through unchanged. -/
theorem mathjaxFilter_scriptLine (ic : Bool) (cfg p f : String)
    (pre post : List HtmlTok) :
    MathjaxFilter.run ic cfg false (pre ++ HtmlTok.scriptLine p f :: post)
      = MathjaxFilter.run ic cfg false pre
        ++ (if hasMathTok pre = true then
              p ++ "\"" ++ kMathjaxSegment ++ "/" ++ f ++ "\"" else "")
        ++ MathjaxFilter.run ic cfg (hasMathTok pre) post
    ∧ (∀ b s, MathjaxFilter.run ic cfg b [HtmlTok.math s] = s)
    ∧ (∀ b s, MathjaxFilter.run ic cfg b [HtmlTok.text s] = s)
    ∧ (∀ b, MathjaxFilter.run ic cfg b [HtmlTok.beginComment]
        = if ic then cfg ++ "\n" ++ kMathjaxBeginComment
          else kMathjaxBeginComment) := by
  refine ⟨?_, ?_, ?_, ?_⟩
  · rw [mathjaxFilter_run_append]
    simp only [Bool.false_or, MathjaxFilter.run, MathjaxFilter.substitute]
    by_cases hm : hasMathTok pre = true
    · simp [hm, String.append_assoc]
    · simp only [Bool.not_eq_true] at hm
      simp [hm]
  · intro b s
    simp [MathjaxFilter.run, MathjaxFilter.substitute]
  · intro b s
    simp [MathjaxFilter.run, MathjaxFilter.substitute]
  · intro b
    by_cases h : ic = true <;>
      simp [MathjaxFilter.run, MathjaxFilter.substitute, h]
